import Mathlib

/-!
Verification of the socket-summary tooling (`dis_sock_info.py`,
`warm_info/info_sock.py`, `extended/di_extended_beta1.py`).

The repository contains three variants of the same pipeline: locate the `ss`
executable, run `ss -s` with a timeout, and parse its textual output into a
key/value structure.  This file gives a shallow embedding of the relevant
functions.  Text is modelled as `List Char` (one element per character) and
Python `dict`s as ordered association lists with Python's insertion semantics
(an assignment to an existing key updates it in place, a new key is appended).
-/

set_option autoImplicit false

/-- Convert a Lean string literal to the `List Char` representation used
throughout this development. -/
def chars (s : String) : List Char := s.data

/-- Python whitespace characters as recognised by `str.strip()` (ASCII range;
the source never feeds non-ASCII whitespace to `strip`). -/
def pySpace (c : Char) : Bool :=
  c = ' ' || c = '\t' || c = '\n' || c = '\r' || c = '\x0b' || c = '\x0c'

/-- Model of Python `str.strip()`: drop whitespace from both ends. -/
def pyStrip (l : List Char) : List Char :=
  ((l.dropWhile pySpace).reverse.dropWhile pySpace).reverse

/-- Model of Python `':' in line`. -/
def hasColon : List Char → Bool
  | [] => false
  | c :: r => if c = ':' then true else hasColon r

/-- Model of Python `line.endswith(':')`. -/
def endsColon (l : List Char) : Bool :=
  match l.reverse with
  | [] => false
  | c :: _ => decide (c = ':')

/-- Text before the first colon, i.e. `line.split(':', 1)[0]`. -/
def beforeColon : List Char → List Char
  | [] => []
  | c :: r => if c = ':' then [] else c :: beforeColon r

/-- Text after the first colon, i.e. `line.split(':', 1)[1]` (the remainder is
kept whole, so it may itself contain colons). -/
def afterColon : List Char → List Char
  | [] => []
  | c :: r => if c = ':' then r else afterColon r

/-- Value of a string of decimal digits, i.e. Python `int(val)` on the digit
strings accepted below. -/
def digitsToNat (l : List Char) : Nat :=
  l.foldl (fun n c => n * 10 + (c.toNat - 48)) 0

/-- Model of Python `str.isdigit()` on ASCII text: nonempty and all decimal
digits.  (Python's `isdigit` additionally accepts some non-ASCII digit
characters; `info_sock.py` guards the subsequent `int(val)` with a
`try/except ValueError` that keeps the string in exactly those cases, so the
decimal-digit model covers the behaviour the spec describes.) -/
def pyIsdigit (l : List Char) : Bool :=
  !l.isEmpty && l.all Char.isDigit

/-- Helper for `pySplitlines`: split the remaining text at `'\n'`, with the
reversed current line as accumulator.  Python's `splitlines` drops a final
empty segment produced by a trailing newline. -/
def splitNL : List Char → List Char → List (List Char)
  | [], acc => [acc.reverse]
  | c :: rest, acc =>
    if c = '\n' then
      acc.reverse :: (match rest with | [] => [] | _ :: _ => splitNL rest [])
    else splitNL rest (c :: acc)

/-- Model of Python `str.splitlines()` restricted to `'\n'` separators (the
only line separator occurring in `ss` output and in the spec's examples). -/
def pySplitlines : List Char → List (List Char)
  | [] => []
  | l => splitNL l []

/-- Lookup in an ordered association list, i.e. Python `d[k]` / `d.get(k)`. -/
def findA {α : Type} : List (List Char × α) → List Char → Option α
  | [], _ => none
  | (k, v) :: rest, q => if k = q then some v else findA rest q

/-- Assignment in an ordered association list, i.e. Python `d[k] = v`: an
existing key is updated in place, a new key is appended at the end. -/
def updA {α : Type} : List (List Char × α) → List Char → α → List (List Char × α)
  | [], k, v => [(k, v)]
  | (k', v') :: rest, k, v =>
    if k' = k then (k, v) :: rest else (k', v') :: updA rest k v

/-- A stored statistics value: an integer (purely numeric raw value) or the
trimmed raw string. -/
inductive SVal where
  | int : Nat → SVal
  | str : List Char → SVal
deriving DecidableEq

/-- A top-level entry of `SocketMonitor._parse_summary`'s result: either a
plain value or a section (a nested mapping). -/
inductive Entry where
  | val : SVal → Entry
  | sect : List (List Char × SVal) → Entry
deriving DecidableEq

/-- The nested mapping owned by one section. -/
abbrev KV := List (List Char × SVal)

/-- The result mapping of `SocketMonitor._parse_summary`. -/
abbrev Summary := List (List Char × Entry)

/-- The loop state of `SocketMonitor._parse_summary`: the mapping built so far
and the `current_section` variable (`none` models Python `None`). -/
structure PState where
  parsed : Summary
  current : Option (List Char)
deriving DecidableEq

/-- Initial loop state of `SocketMonitor._parse_summary`. -/
def initState : PState := ⟨[], none⟩

/-- Numeric coercion of `info_sock.py` line 91:
`val = int(val) if val.isdigit() else val`. -/
def coerceVal (v : List Char) : SVal :=
  if pyIsdigit v then SVal.int (digitsToNat v) else SVal.str v

/-- The key/value branch of `SocketMonitor._parse_summary` (lines 95-98):
`if current_section: parsed[current_section][key] = val else: parsed[key] = val`.
Python's truthiness test on `current_section` is false for `None` and for the
empty string.  When the current section's entry is not a dict Python would
raise (`KeyError`/`TypeError`); that is the `Except.error` case, which the
totality theorem below shows is unreachable from the initial state. -/
def stepKV (st : PState) (k : List Char) (v : SVal) : Except Unit PState :=
  match st.current with
  | some c =>
    if c.isEmpty then Except.ok ⟨updA st.parsed k (Entry.val v), st.current⟩
    else
      match findA st.parsed c with
      | some (Entry.sect m) =>
        Except.ok ⟨updA st.parsed c (Entry.sect (updA m k v)), st.current⟩
      | _ => Except.error ()
  | none => Except.ok ⟨updA st.parsed k (Entry.val v), st.current⟩

/-- One iteration of the `for line in output.splitlines()` loop of
`SocketMonitor._parse_summary` (lines 80-98): strip the line; a line ending in
a colon opens a section named by the text before that final colon; otherwise a
line containing a colon is split at the first colon into a key and a value;
all other lines are skipped. -/
def stepE (st : PState) (rawLine : List Char) : Except Unit PState :=
  if endsColon (pyStrip rawLine) then
    Except.ok ⟨updA st.parsed (pyStrip rawLine).dropLast (Entry.sect []),
               some (pyStrip rawLine).dropLast⟩
  else if hasColon (pyStrip rawLine) then
    stepKV st (pyStrip (beforeColon (pyStrip rawLine)))
      (coerceVal (pyStrip (afterColon (pyStrip rawLine))))
  else Except.ok st

/-- The whole loop of `SocketMonitor._parse_summary` over a list of lines. -/
def parseLinesE : PState → List (List Char) → Except Unit PState
  | st, [] => Except.ok st
  | st, l :: ls =>
    match stepE st l with
    | Except.ok st' => parseLinesE st' ls
    | Except.error e => Except.error e

/-- `SocketMonitor._parse_summary(output)`: split into lines, run the loop
from the initial state and return the mapping. -/
def parseSummaryE (text : List Char) : Except Unit Summary :=
  match parseLinesE initState (pySplitlines text) with
  | Except.ok st => Except.ok st.parsed
  | Except.error e => Except.error e

/-- The mapping returned by `SocketMonitor._parse_summary` (the error case is
proved unreachable below). -/
def parseTop (text : List Char) : Summary :=
  match parseSummaryE text with
  | Except.ok m => m
  | Except.error _ => []

/-- Reading back the value stored under key `k` in the scope that is currently
open (the current section if one is open and nonempty, the top level
otherwise).  This is how the parsed result exposes a freshly stored pair. -/
def scopeFind (st : PState) (k : List Char) : Option SVal :=
  match st.current with
  | some c =>
    if c.isEmpty then
      match findA st.parsed k with
      | some (Entry.val v) => some v
      | _ => none
    else
      match findA st.parsed c with
      | some (Entry.sect m) => findA m k
      | _ => none
  | none =>
    match findA st.parsed k with
    | some (Entry.val v) => some v
    | _ => none

/-- `scopeFind` lifted to the fallible step result. -/
def scopeFindE (r : Except Unit PState) (k : List Char) : Option SVal :=
  match r with
  | Except.ok st => scopeFind st k
  | Except.error _ => none

example : pySplitlines (chars "Total: 193\nTCP:\n\tEstab 10\nUDP: 5\n") =
    [chars "Total: 193", chars "TCP:", chars "\tEstab 10", chars "UDP: 5"] := by decide

example : parseTop (chars "Total: 193\nTCP:\n\tEstab 10\nUDP: 5\n") =
    [(chars "Total", Entry.val (SVal.int 193)),
     (chars "TCP", Entry.sect [(chars "UDP", SVal.int 5)])] := by decide

/-- Lookup after an assignment: the assigned key reads back the new value,
every other key is unaffected. -/
theorem findA_updA {α : Type} (m : List (List Char × α)) (k q : List Char) (v : α) :
    findA (updA m k v) q = if k = q then some v else findA m q := by
  induction m with
  | nil => by_cases h : k = q <;> simp [updA, findA, h]
  | cons p rest ih =>
    obtain ⟨k', v'⟩ := p
    by_cases h1 : k' = k
    · subst h1
      by_cases h2 : k' = q <;> simp [updA, findA, h2]
    · by_cases h2 : k' = q
      · subst h2
        have h1' : k ≠ k' := fun hh => h1 hh.symm
        simp [updA, findA, h1, h1']
      · simp [updA, findA, h1, h2, ih]

/-- `hasColon` tests membership of `':'`. -/
theorem hasColon_iff (l : List Char) : hasColon l = true ↔ ':' ∈ l := by
  induction l with
  | nil => simp [hasColon]
  | cons c r ih =>
    by_cases h : c = ':'
    · subst h; simp [hasColon]
    · have h' : ¬(':' = c) := fun hh => h hh.symm
      simp [hasColon, h, ih, List.mem_cons, h']

/-- A line ending in a colon contains a colon, so the two branches of the
parser's conditional are mutually exclusive in the stated order. -/
theorem endsColon_imp_hasColon (l : List Char) (h : endsColon l = true) :
    hasColon l = true := by
  cases hr : l.reverse with
  | nil => simp [endsColon, hr] at h
  | cons c t =>
    simp [endsColon, hr] at h
    subst h
    have hm : ':' ∈ l.reverse := by rw [hr]; exact List.mem_cons_self _ _
    exact (hasColon_iff l).mpr (List.mem_reverse.mp hm)

/-- Splitting at the first colon: the prefix before it. -/
theorem beforeColon_append (a b : List Char) (ha : hasColon a = false) :
    beforeColon (a ++ ':' :: b) = a := by
  induction a with
  | nil => simp [beforeColon]
  | cons c r ih =>
    by_cases h : c = ':'
    · subst h; simp [hasColon] at ha
    · simp [hasColon, h] at ha
      simp [beforeColon, h, ih ha]

/-- Splitting at the first colon: the whole remainder after it, colons
included. -/
theorem afterColon_append (a b : List Char) (ha : hasColon a = false) :
    afterColon (a ++ ':' :: b) = b := by
  induction a with
  | nil => simp [afterColon]
  | cons c r ih =>
    by_cases h : c = ':'
    · subst h; simp [hasColon] at ha
    · simp [hasColon, h] at ha
      simp [afterColon, h, ih ha]

/-- A line of the shape `a ++ ":" ++ b` contains a colon. -/
theorem hasColon_append (a b : List Char) : hasColon (a ++ ':' :: b) = true := by
  induction a with
  | nil => simp [hasColon]
  | cons c r ih => by_cases h : c = ':' <;> simp [hasColon, h, ih]

/-- Loop invariant of `SocketMonitor._parse_summary`: whenever
`current_section` holds a nonempty name, that name is mapped to a section
(a dict in the Python source), so `parsed[current_section][key] = val` cannot
fail. -/
def ParseInv (st : PState) : Prop :=
  ∀ c, st.current = some c → c.isEmpty = false →
    ∃ m, findA st.parsed c = some (Entry.sect m)

/-- The initial state satisfies the invariant. -/
theorem ParseInv_initState : ParseInv initState := by
  intro c hc _
  simp [initState] at hc

/-- The key/value branch never fails under the invariant, preserves
`current_section` and the invariant, and the stored pair reads back from the
currently open scope. -/
theorem stepKV_spec (st : PState) (k : List Char) (v : SVal) (h : ParseInv st) :
    ∃ st', stepKV st k v = Except.ok st' ∧ st'.current = st.current ∧ ParseInv st' ∧
      scopeFind st' k = some v := by
  cases hcur : st.current with
  | none =>
    refine ⟨⟨updA st.parsed k (Entry.val v), none⟩, ?_, rfl, ?_, ?_⟩
    · simp [stepKV, hcur]
    · intro c hc hne
      simp at hc
    · simp [scopeFind, findA_updA]
  | some c =>
    cases he : c.isEmpty with
    | true =>
      refine ⟨⟨updA st.parsed k (Entry.val v), some c⟩, ?_, rfl, ?_, ?_⟩
      · simp [stepKV, hcur, he]
      · intro c' hc' hne
        simp at hc'
        subst hc'
        rw [he] at hne
        cases hne
      · simp [scopeFind, he, findA_updA]
    | false =>
      obtain ⟨m, hm⟩ := h c hcur he
      refine ⟨⟨updA st.parsed c (Entry.sect (updA m k v)), some c⟩, ?_, rfl, ?_, ?_⟩
      · simp [stepKV, hcur, he, hm]
      · intro c' hc' hne
        simp at hc'
        subst hc'
        exact ⟨updA m k v, by simp [findA_updA]⟩
      · simp [scopeFind, he, findA_updA]

/-- One loop iteration never fails under the invariant and preserves it. -/
theorem stepE_ok (st : PState) (l : List Char) (h : ParseInv st) :
    ∃ st', stepE st l = Except.ok st' ∧ ParseInv st' := by
  by_cases h1 : endsColon (pyStrip l) = true
  · refine ⟨⟨updA st.parsed (pyStrip l).dropLast (Entry.sect []),
            some (pyStrip l).dropLast⟩, ?_, ?_⟩
    · simp [stepE, h1]
    · intro c hc hne
      simp at hc
      subst hc
      exact ⟨[], by simp [findA_updA]⟩
  · by_cases h2 : hasColon (pyStrip l) = true
    · obtain ⟨st', hs, _, hI, _⟩ :=
        stepKV_spec st (pyStrip (beforeColon (pyStrip l)))
          (coerceVal (pyStrip (afterColon (pyStrip l)))) h
      exact ⟨st', by simp [stepE, h1, h2, hs], hI⟩
    · exact ⟨st, by simp [stepE, h1, h2], h⟩

/-- The whole loop never fails from an invariant-satisfying state. -/
theorem parseLinesE_ok (ls : List (List Char)) (st : PState) (h : ParseInv st) :
    ∃ st', parseLinesE st ls = Except.ok st' ∧ ParseInv st' := by
  induction ls generalizing st with
  | nil => exact ⟨st, rfl, h⟩
  | cons l ls ih =>
    obtain ⟨st', hs, hI⟩ := stepE_ok st l h
    obtain ⟨st'', hp, hI'⟩ := ih st' hI
    exact ⟨st'', by simp [parseLinesE, hs, hp], hI'⟩

/-- Running the loop over a concatenation runs it over the pieces in order. -/
theorem parseLinesE_append (l1 l2 : List (List Char)) (st : PState) :
    parseLinesE st (l1 ++ l2) =
      match parseLinesE st l1 with
      | Except.ok st' => parseLinesE st' l2
      | Except.error e => Except.error e := by
  induction l1 generalizing st with
  | nil => simp [parseLinesE]
  | cons l ls ih =>
    cases hse : stepE st l with
    | ok st' => simp [parseLinesE, hse, ih]
    | error e => simp [parseLinesE, hse]

/-- Simulation for the key/value branch: two loop states with the same
`current_section` and the same entry at a fixed key `q` store a pair
identically as far as `q`'s entry is concerned. -/
theorem stepKV_sim (q : List Char) (σ τ : PState) (k : List Char) (v : SVal)
    (hc : σ.current = τ.current) (hq : findA σ.parsed q = findA τ.parsed q)
    (hσ : ParseInv σ) (hτ : ParseInv τ) :
    ∃ σ' τ', stepKV σ k v = Except.ok σ' ∧ stepKV τ k v = Except.ok τ' ∧
      σ'.current = τ'.current ∧ findA σ'.parsed q = findA τ'.parsed q ∧
      ParseInv σ' ∧ ParseInv τ' := by
  cases hcur : σ.current with
  | none =>
    have hcur' : τ.current = none := by rw [← hc, hcur]
    refine ⟨⟨updA σ.parsed k (Entry.val v), none⟩,
            ⟨updA τ.parsed k (Entry.val v), none⟩, ?_, ?_, rfl, ?_, ?_, ?_⟩
    · simp [stepKV, hcur]
    · simp [stepKV, hcur']
    · simp [findA_updA, hq]
    · intro c hcc hne
      simp at hcc
    · intro c hcc hne
      simp at hcc
  | some c =>
    have hcur' : τ.current = some c := by rw [← hc, hcur]
    cases he : c.isEmpty with
    | true =>
      refine ⟨⟨updA σ.parsed k (Entry.val v), some c⟩,
              ⟨updA τ.parsed k (Entry.val v), some c⟩, ?_, ?_, rfl, ?_, ?_, ?_⟩
      · simp [stepKV, hcur, he]
      · simp [stepKV, hcur', he]
      · simp [findA_updA, hq]
      · intro c' hcc hne
        simp at hcc
        subst hcc
        rw [he] at hne
        cases hne
      · intro c' hcc hne
        simp at hcc
        subst hcc
        rw [he] at hne
        cases hne
    | false =>
      obtain ⟨mσ, hmσ⟩ := hσ c hcur he
      obtain ⟨mτ, hmτ⟩ := hτ c hcur' he
      by_cases hcq : c = q
      · subst hcq
        have hmm : mσ = mτ := by
          rw [hmσ, hmτ] at hq
          simpa using hq
        subst hmm
        refine ⟨⟨updA σ.parsed c (Entry.sect (updA mσ k v)), some c⟩,
                ⟨updA τ.parsed c (Entry.sect (updA mσ k v)), some c⟩, ?_, ?_, rfl, ?_, ?_, ?_⟩
        · simp [stepKV, hcur, he, hmσ]
        · simp [stepKV, hcur', he, hmτ]
        · simp [findA_updA]
        · intro c' hcc hne
          simp at hcc
          subst hcc
          exact ⟨updA mσ k v, by simp [findA_updA]⟩
        · intro c' hcc hne
          simp at hcc
          subst hcc
          exact ⟨updA mσ k v, by simp [findA_updA]⟩
      · refine ⟨⟨updA σ.parsed c (Entry.sect (updA mσ k v)), some c⟩,
                ⟨updA τ.parsed c (Entry.sect (updA mτ k v)), some c⟩, ?_, ?_, rfl, ?_, ?_, ?_⟩
        · simp [stepKV, hcur, he, hmσ]
        · simp [stepKV, hcur', he, hmτ]
        · simp [findA_updA, hcq, hq]
        · intro c' hcc hne
          simp at hcc
          subst hcc
          exact ⟨updA mσ k v, by simp [findA_updA]⟩
        · intro c' hcc hne
          simp at hcc
          subst hcc
          exact ⟨updA mτ k v, by simp [findA_updA]⟩

/-- Simulation for a whole loop step. -/
theorem stepE_sim (q : List Char) (σ τ : PState) (l : List Char)
    (hc : σ.current = τ.current) (hq : findA σ.parsed q = findA τ.parsed q)
    (hσ : ParseInv σ) (hτ : ParseInv τ) :
    ∃ σ' τ', stepE σ l = Except.ok σ' ∧ stepE τ l = Except.ok τ' ∧
      σ'.current = τ'.current ∧ findA σ'.parsed q = findA τ'.parsed q ∧
      ParseInv σ' ∧ ParseInv τ' := by
  by_cases h1 : endsColon (pyStrip l) = true
  · refine ⟨⟨updA σ.parsed (pyStrip l).dropLast (Entry.sect []),
             some (pyStrip l).dropLast⟩,
            ⟨updA τ.parsed (pyStrip l).dropLast (Entry.sect []),
             some (pyStrip l).dropLast⟩, ?_, ?_, rfl, ?_, ?_, ?_⟩
    · simp [stepE, h1]
    · simp [stepE, h1]
    · simp [findA_updA, hq]
    · intro c hcc hne
      simp at hcc
      subst hcc
      exact ⟨[], by simp [findA_updA]⟩
    · intro c hcc hne
      simp at hcc
      subst hcc
      exact ⟨[], by simp [findA_updA]⟩
  · by_cases h2 : hasColon (pyStrip l) = true
    · obtain ⟨σ', τ', hsσ, hsτ, hcc, hqq, hIσ, hIτ⟩ :=
        stepKV_sim q σ τ (pyStrip (beforeColon (pyStrip l)))
          (coerceVal (pyStrip (afterColon (pyStrip l)))) hc hq hσ hτ
      exact ⟨σ', τ', by simp [stepE, h1, h2, hsσ], by simp [stepE, h1, h2, hsτ],
             hcc, hqq, hIσ, hIτ⟩
    · exact ⟨σ, τ, by simp [stepE, h1, h2], by simp [stepE, h1, h2], hc, hq, hσ, hτ⟩

/-- Simulation for the whole loop: the final entry at key `q` is determined by
the processed lines, the starting `current_section`, and the starting entry at
`q` alone. -/
theorem parseLinesE_sim (q : List Char) (ls : List (List Char)) (σ τ : PState)
    (hc : σ.current = τ.current) (hq : findA σ.parsed q = findA τ.parsed q)
    (hσ : ParseInv σ) (hτ : ParseInv τ) :
    ∃ σ' τ', parseLinesE σ ls = Except.ok σ' ∧ parseLinesE τ ls = Except.ok τ' ∧
      findA σ'.parsed q = findA τ'.parsed q := by
  induction ls generalizing σ τ with
  | nil => exact ⟨σ, τ, rfl, rfl, hq⟩
  | cons l ls ih =>
    obtain ⟨σ', τ', hsσ, hsτ, hcc, hqq, hIσ, hIτ⟩ := stepE_sim q σ τ l hc hq hσ hτ
    obtain ⟨σ'', τ'', hpσ, hpτ, hfin⟩ := ih σ' τ' hcc hqq hIσ hIτ
    exact ⟨σ'', τ'', by simp [parseLinesE, hsσ, hpσ], by simp [parseLinesE, hsτ, hpτ], hfin⟩

/-- A line of the shape `name ++ ":"` ends in a colon. -/
theorem endsColon_concat (name : List Char) : endsColon (name ++ [':']) = true := by
  simp [endsColon, List.reverse_append]

/-- C9: in `SocketMonitor._parse_summary`, every occurrence of a section
header line resets that section's mapping to a fresh empty dict
(`parsed[current_section] = {}`), so the entry finally stored under the
section name is fully determined by the input from the last header occurrence
onwards: parsing `pre ++ [header] ++ post` and parsing `[header] ++ post`
store the same entry under the section name, whatever `pre` contributed. -/
theorem C9_theorem (pre post : List (List Char)) (name hdr : List Char)
    (hhdr : pyStrip hdr = name ++ [':']) :
    ∃ σ τ, parseLinesE initState (pre ++ hdr :: post) = Except.ok σ ∧
      parseLinesE initState (hdr :: post) = Except.ok τ ∧
      findA σ.parsed name = findA τ.parsed name := by
  obtain ⟨σ0, hpre, hI0⟩ := parseLinesE_ok pre initState ParseInv_initState
  have hec : endsColon (pyStrip hdr) = true := by rw [hhdr]; exact endsColon_concat name
  have hdl : (pyStrip hdr).dropLast = name := by
    rw [hhdr]
    exact List.dropLast_concat
  have hstep : stepE σ0 hdr =
      Except.ok ⟨updA σ0.parsed name (Entry.sect []), some name⟩ := by
    simp [stepE, hec, hdl]
  have hstep' : stepE initState hdr =
      Except.ok ⟨[(name, Entry.sect [])], some name⟩ := by
    simp [stepE, hec, hdl, initState, updA]
  have hIσ : ParseInv ⟨updA σ0.parsed name (Entry.sect []), some name⟩ := by
    intro c hc hne
    simp at hc
    subst hc
    exact ⟨[], by simp [findA_updA]⟩
  have hIτ : ParseInv ⟨[(name, Entry.sect [])], some name⟩ := by
    intro c hc hne
    simp at hc
    subst hc
    exact ⟨[], by simp [findA]⟩
  obtain ⟨σ', τ', hpσ, hpτ, hfin⟩ :=
    parseLinesE_sim name post ⟨updA σ0.parsed name (Entry.sect []), some name⟩
      ⟨[(name, Entry.sect [])], some name⟩ rfl
      (by simp [findA_updA, findA]) hIσ hIτ
  refine ⟨σ', τ', ?_, ?_, hfin⟩
  · rw [parseLinesE_append, hpre]
    simp [parseLinesE, hstep, hpσ]
  · simp [parseLinesE, hstep', hpτ]

/-- C9 witness: a concrete instance with an earlier "TCP:" section holding
`A: 1`; after the second "TCP:" header only `B: 2` remains under "TCP". -/
theorem C9_witness :
    ∃ σ τ, parseLinesE initState
        ([chars "TCP:", chars "A: 1"] ++ chars "TCP:" :: [chars "B: 2"]) = Except.ok σ ∧
      parseLinesE initState (chars "TCP:" :: [chars "B: 2"]) = Except.ok τ ∧
      findA σ.parsed (chars "TCP") = findA τ.parsed (chars "TCP") :=
  C9_theorem [chars "TCP:", chars "A: 1"] [chars "B: 2"] (chars "TCP") (chars "TCP:")
    (by decide)

/-- C4: `SocketMonitor._parse_summary` is total: for every input text the loop
finishes without raising (the `parsed[current_section][key]` assignment always
hits an existing dict), and a line whose stripped form contains no colon —
in particular a blank line — leaves the state unchanged, producing no entry. -/
theorem C4_theorem (text : List Char) (st : PState) (l : List Char)
    (hnc : hasColon (pyStrip l) = false) :
    (∃ m, parseSummaryE text = Except.ok m) ∧ stepE st l = Except.ok st := by
  constructor
  · obtain ⟨st', hp, _⟩ := parseLinesE_ok (pySplitlines text) initState ParseInv_initState
    exact ⟨st'.parsed, by simp [parseSummaryE, hp]⟩
  · have h1 : endsColon (pyStrip l) = false := by
      cases h : endsColon (pyStrip l)
      · rfl
      · rw [endsColon_imp_hasColon _ h] at hnc
        cases hnc
    simp [stepE, h1, hnc]

/-- C4 witness: parsing a concrete text succeeds, and a concrete blank line
and a concrete colon-free line are skipped. -/
theorem C4_witness :
    (∃ m, parseSummaryE (chars "Total: 193\nTCP:\n\tEstab 10\nUDP: 5\n") = Except.ok m) ∧
      stepE initState (chars "   ") = Except.ok initState :=
  C4_theorem (chars "Total: 193\nTCP:\n\tEstab 10\nUDP: 5\n") initState (chars "   ")
    (by decide)

/-- C6: parsing is deterministic and idempotent.  `_parse_summary` computes
its result from `output` alone — the embedding is a pure function of the
input text, so parsing the same text twice yields structurally equal results
and the result depends on nothing but the text. -/
theorem C6_theorem (t : List Char) :
    parseSummaryE t = parseSummaryE t ∧ parseTop t = parseTop t :=
  ⟨rfl, rfl⟩

/-- The input text of the spec's parsing scenario. -/
def c1Input : List Char := chars "Total: 193\nTCP:\n\tEstab 10\nUDP: 5\n"

/-- C1 counterexample: the claim asserts that "UDP" maps to integer 5 at the
top level of the result.  In fact the top level has no "UDP" entry at all:
the line `\tEstab 10` contains no colon (so it is skipped and closes
nothing), the "TCP" section therefore remains open, and `UDP: 5` is stored
inside it. -/
theorem C1_counterexample :
    findA (parseTop c1Input) (chars "UDP") = none ∧
    findA (parseTop c1Input) (chars "TCP") =
      some (Entry.sect [(chars "UDP", SVal.int 5)]) := by decide

/-- C1 (amended): the input `"Total: 193\nTCP:\n\tEstab 10\nUDP: 5\n"` parses
to `{"Total": 193, "TCP": {"UDP": 5}}` — "Total" as integer 193 at top level,
the colon-free line `Estab 10` skipped, and "UDP" as integer 5 nested under
the still-open section "TCP". -/
theorem C1_theorem :
    parseTop c1Input =
      [(chars "Total", Entry.val (SVal.int 193)),
       (chars "TCP", Entry.sect [(chars "UDP", SVal.int 5)])] := by decide

/-- Shared helper: on a non-header line containing a colon, the stored pair
reads back from the currently open scope (key from before the first colon,
value coerced from after it). -/
theorem stepE_store (st : PState) (l : List Char) (h : ParseInv st)
    (h1 : endsColon (pyStrip l) = false) (h2 : hasColon (pyStrip l) = true) :
    scopeFindE (stepE st l) (pyStrip (beforeColon (pyStrip l))) =
      some (coerceVal (pyStrip (afterColon (pyStrip l)))) := by
  obtain ⟨st', hs, _, _, hsf⟩ :=
    stepKV_spec st (pyStrip (beforeColon (pyStrip l)))
      (coerceVal (pyStrip (afterColon (pyStrip l)))) h
  simp [stepE, h1, h2, hs, scopeFindE, hsf]

/-- Helper modelling Python `line.split(":")` (all occurrences): first chunk
and list of remaining chunks. -/
def splitCAux : List Char → List Char × List (List Char)
  | [] => ([], [])
  | c :: r =>
    if c = ':' then ([], (splitCAux r).1 :: (splitCAux r).2)
    else (c :: (splitCAux r).1, (splitCAux r).2)

/-- Model of Python `line.split(":")`. -/
def splitColons (l : List Char) : List (List Char) :=
  (splitCAux l).1 :: (splitCAux l).2

/-- One iteration of the loop in `parse_socket_summary` (`dis_sock_info.py`
lines 55-60): `parts = line.split(":")`; only when there are exactly two
parts is `parsed[parts[0].strip()] = parts[1].strip()` executed. -/
def stepPSS (m : List (List Char × List Char)) (l : List Char) :
    List (List Char × List Char) :=
  match splitColons l with
  | [k, v] => updA m (pyStrip k) (pyStrip v)
  | _ => m

/-- `parse_socket_summary(output)` of `dis_sock_info.py`: the dict built by
the loop (the function then renders it with `json.dumps`, which is
presentation and out of scope). -/
def parse_socket_summary (output : List Char) : List (List Char × List Char) :=
  (pySplitlines output).foldl stepPSS []

/-- Splitting a concatenation at an explicit colon concatenates the splits. -/
theorem splitCAux_append (x y : List Char) :
    splitCAux (x ++ ':' :: y) = ((splitCAux x).1, (splitCAux x).2 ++ splitColons y) := by
  induction x with
  | nil => simp [splitCAux, splitColons]
  | cons c r ih => by_cases h : c = ':' <;> simp [splitCAux, h, ih]

/-- Number of chunks produced for a text with an explicit colon. -/
theorem splitColons_length_append (x y : List Char) :
    (splitColons (x ++ ':' :: y)).length =
      (splitCAux x).2.length + 1 + (splitColons y).length := by
  simp [splitColons, splitCAux_append]
  omega

/-- A line that does not split into exactly two parts is skipped by
`parse_socket_summary`. -/
theorem stepPSS_of_length_ne_two (m : List (List Char × List Char)) (l : List Char)
    (h : (splitColons l).length ≠ 2) : stepPSS m l = m := by
  cases hx : splitColons l with
  | nil => simp [stepPSS, hx]
  | cons k t =>
    cases t with
    | nil => simp [stepPSS, hx]
    | cons v t2 =>
      cases t2 with
      | nil =>
        rw [hx] at h
        simp at h
      | cons w t3 => simp [stepPSS, hx]

/-- C3 (amended): `SocketMonitor._parse_summary` (and, via its regex,
`parse_socket_output`) splits a non-header colon line at the FIRST colon
only — the key is the trimmed text before it and the value is derived from
the entire trimmed remainder, which may itself contain colons.
`parse_socket_summary` in `dis_sock_info.py`, however, keeps only lines with
exactly one colon: a line with two or more colons produces no entry at all. -/
theorem C3_theorem (st : PState) (l a b : List Char) (m : List (List Char × List Char))
    (x y z : List Char) (h : ParseInv st)
    (hdec : pyStrip l = a ++ ':' :: b) (ha : hasColon a = false)
    (hne : endsColon (pyStrip l) = false) :
    scopeFindE (stepE st l) (pyStrip a) = some (coerceVal (pyStrip b)) ∧
      stepPSS m (x ++ ':' :: (y ++ ':' :: z)) = m := by
  constructor
  · have h2 : hasColon (pyStrip l) = true := by rw [hdec]; exact hasColon_append a b
    have hb : beforeColon (pyStrip l) = a := by rw [hdec]; exact beforeColon_append a b ha
    have hf : afterColon (pyStrip l) = b := by rw [hdec]; exact afterColon_append a b ha
    have hst := stepE_store st l h hne h2
    rw [hb, hf] at hst
    exact hst
  · apply stepPSS_of_length_ne_two
    have l1 := splitColons_length_append x (y ++ ':' :: z)
    have l2 := splitColons_length_append y z
    have l3 : (splitColons z).length = (splitCAux z).2.length + 1 := by simp [splitColons]
    omega

/-- C3 witness: the line `Key: a: b` stores key "Key" with the full remainder
`a: b` (a colon inside the value) in `_parse_summary`, while the two-colon
line `a: b: c` is skipped entirely by `parse_socket_summary`. -/
theorem C3_witness :
    scopeFindE (stepE initState (chars "Key: a: b")) (pyStrip (chars "Key")) =
        some (coerceVal (pyStrip (chars " a: b"))) ∧
      stepPSS [] (chars "a" ++ ':' :: (chars " b" ++ ':' :: chars " c")) = [] :=
  C3_theorem initState (chars "Key: a: b") (chars "Key") (chars " a: b") [] (chars "a")
    (chars " b") (chars " c") ParseInv_initState (by decide) (by decide) (by decide)

/-- C3 counterexample: the claim says every non-header line with at least one
colon is split at the first colon, so `"a: b: c"` should yield the entry
`("a", "b: c")`; `parse_socket_summary` in `dis_sock_info.py` instead skips
the line (it splits on ALL colons and requires exactly two parts), producing
an empty mapping. -/
theorem C3_counterexample :
    parse_socket_summary (chars "a: b: c") = [] ∧
      findA (parse_socket_summary (chars "a: b: c")) (chars "a") = none := by decide

/-- ASCII model of the regex character class `\w` used in
`di_extended_beta1.py`. -/
def isWordChar (c : Char) : Bool := c.isAlphanum || c = '_'

/-- The `\s*(.+)` tail of the regex `(\w+)\s*:\s*(.+)`: greedy whitespace
skipping, but `.+` must still match at least one character, so on an
all-whitespace remainder the `\s*` backtracks and the group captures the
last character; on an empty remainder the whole regex fails. -/
def valueGroup (r3 : List Char) : Option (List Char) :=
  match r3.dropWhile pySpace with
  | [] =>
    match r3.reverse with
    | [] => none
    | c :: _ => some [c]
  | ds => some ds

/-- Model of `re.match(r"(\w+)\s*:\s*(.+)", line)` in `parse_socket_output`:
a line matches when it starts with a run of word characters, followed by
optional whitespace, a colon, and a nonempty remainder; the captured key is
the word run and the captured value is the remainder after the colon with
its leading whitespace consumed greedily. -/
def lineKV (l : List Char) : Option (List Char × List Char) :=
  match l.takeWhile isWordChar with
  | [] => none
  | w =>
    match (l.dropWhile isWordChar).dropWhile pySpace with
    | ':' :: r3 =>
      match valueGroup r3 with
      | some v => some (w, v)
      | none => none
    | _ => none

/-- The digit prefix matched by `re.match(r"^(\d+)", value.strip())`. -/
def leadingDigits (l : List Char) : List Char := l.takeWhile Char.isDigit

/-- One non-overlapping match of the regex `(\w+\s\d+)` at the start of the
text: a maximal word-character run, one whitespace character, and a digit
run; returns the (word, digits) pair and the unconsumed rest.  Python
re-splits the matched string with `item.split()`, which recovers exactly
this pair since the word run contains no whitespace. -/
def matchWordNumAt (l : List Char) : Option ((List Char × List Char) × List Char) :=
  match l.takeWhile isWordChar with
  | [] => none
  | w =>
    match l.dropWhile isWordChar with
    | c :: r2 =>
      if pySpace c then
        match r2.takeWhile Char.isDigit with
        | [] => none
        | d => some ((w, d), r2.dropWhile Char.isDigit)
      else none
    | [] => none

/-- Model of `re.findall(r"(\w+\s\d+)", value)`: left-to-right
non-overlapping scan.  `fuel` bounds the recursion; every step advances at
least one character, so the initial fuel `l.length` used below never runs
out before the text does. -/
def findallWN : Nat → List Char → List (List Char × List Char)
  | 0, _ => []
  | _ + 1, [] => []
  | fuel + 1, c :: rest =>
    match matchWordNumAt (c :: rest) with
    | some (p, r) => p :: findallWN fuel r
    | none => findallWN fuel rest

/-- A value stored by `parse_socket_output`: an integer (leading digits of a
numeric value), a trimmed string, or the dict stored under a `_details`
key. -/
inductive XVal where
  | int : Nat → XVal
  | str : List Char → XVal
  | dmap : List (List Char × List Char) → XVal
deriving DecidableEq

/-- The result mapping of `parse_socket_output`. -/
abbrev XMap := List (List Char × XVal)

/-- Model of `dict(item.split() for item in extra)`: sequential insertion
with last-write-wins. -/
def dictPairs (ps : List (List Char × List Char)) : List (List Char × List Char) :=
  ps.foldl (fun m p => updA m p.1 p.2) []

/-- One iteration of the loop in `parse_socket_output`
(`di_extended_beta1.py` lines 88-100): on a regex match, store the leading
integer of the stripped value (falling back to the stripped string when it
does not start with a digit), and additionally store a `<key>_details` dict
when the raw value contains `word number` groups. -/
def stepX (m : XMap) (l : List Char) : XMap :=
  match lineKV l with
  | none => m
  | some (k, v) =>
    match leadingDigits (pyStrip v) with
    | [] => updA m k (XVal.str (pyStrip v))
    | ds =>
      match findallWN v.length v with
      | [] => updA m k (XVal.int (digitsToNat ds))
      | ex =>
        updA (updA m k (XVal.int (digitsToNat ds))) (k ++ chars "_details")
          (XVal.dmap (dictPairs ex))

/-- `parse_socket_output(output)` of `di_extended_beta1.py`. -/
def parse_socket_output (output : List Char) : XMap :=
  (pySplitlines output).foldl stepX []

/-- The `SocketStats` dataclass of `di_extended_beta1.py`. -/
structure SocketStats where
  total : XVal
  tcp : Option XVal
  udp : Option XVal
  unix : Option XVal
  raw_output : List Char
  details : XMap
deriving DecidableEq

/-- The success path of `get_socket_stats` (`di_extended_beta1.py` lines
137-146): parse the command output and build the `SocketStats` record with
`parsed.get("Total", 0)` and plain `parsed.get(...)` for the other fields. -/
def get_socket_stats (output : List Char) : SocketStats :=
  { total := (findA (parse_socket_output output) (chars "Total")).getD (XVal.int 0),
    tcp := findA (parse_socket_output output) (chars "TCP"),
    udp := findA (parse_socket_output output) (chars "UDP"),
    unix := findA (parse_socket_output output) (chars "UNIX"),
    raw_output := output,
    details := parse_socket_output output }

/-- C2 (amended): in `SocketMonitor._parse_summary` the claim's coercion rule
holds — a trimmed value consisting solely of decimal digits is stored as the
corresponding integer, any other value is stored as the trimmed string in
full.  `parse_socket_output` in `di_extended_beta1.py` does NOT follow the
rule: it coerces by leading digits (see the counterexample). -/
theorem C2_theorem (st : PState) (l : List Char) (h : ParseInv st)
    (hne : endsColon (pyStrip l) = false) (hc : hasColon (pyStrip l) = true) :
    (pyIsdigit (pyStrip (afterColon (pyStrip l))) = true →
      scopeFindE (stepE st l) (pyStrip (beforeColon (pyStrip l))) =
        some (SVal.int (digitsToNat (pyStrip (afterColon (pyStrip l)))))) ∧
    (pyIsdigit (pyStrip (afterColon (pyStrip l))) = false →
      scopeFindE (stepE st l) (pyStrip (beforeColon (pyStrip l))) =
        some (SVal.str (pyStrip (afterColon (pyStrip l))))) := by
  have hst := stepE_store st l h hne hc
  constructor
  · intro hd
    rw [hst]
    simp [coerceVal, hd]
  · intro hd
    rw [hst]
    simp [coerceVal, hd]

/-- C2 witness: the spec's scenario under `_parse_summary` — the value
`45 (estab 30, closed 10)` is not all digits, so it is stored as that exact
trimmed string, not as integer 45. -/
theorem C2_witness :
    scopeFindE (stepE initState (chars "Total: 45 (estab 30, closed 10)"))
        (pyStrip (beforeColon (pyStrip (chars "Total: 45 (estab 30, closed 10)")))) =
      some (SVal.str (pyStrip (afterColon (pyStrip (chars "Total: 45 (estab 30, closed 10)"))))) :=
  (C2_theorem initState (chars "Total: 45 (estab 30, closed 10)") ParseInv_initState
    (by decide) (by decide)).2 (by decide)

/-- C2 counterexample: the claim (citing `parse_socket_output`) says the value
`45 (estab 30, closed 10)` is stored as that exact string; `parse_socket_output`
instead stores the integer 45 for the key. -/
theorem C2_counterexample :
    findA (parse_socket_output (chars "TCP: 45 (estab 30, closed 10)")) (chars "TCP") =
        some (XVal.int 45) ∧
      findA (parse_socket_output (chars "TCP: 45 (estab 30, closed 10)")) (chars "TCP") ≠
        some (XVal.str (chars "45 (estab 30, closed 10)")) := by decide

/-- C5 (amended): in `SocketMonitor._parse_summary` every line either leaves
the state unchanged, opens exactly one new section, or stores exactly one
key/value pair in exactly one scope (top level or the single current
section) — no line touches two scopes.  In `parse_socket_output` a line
contributes at most an entry for its key plus, for numeric values with
embedded `word number` groups, one extra `<key>_details` entry — both in the
single top-level scope. -/
theorem C5_theorem (st : PState) (l : List Char) (h : ParseInv st)
    (m : XMap) (lx : List Char) :
    (∃ st', stepE st l = Except.ok st' ∧
      (st' = st ∨
       (∃ name, st' = ⟨updA st.parsed name (Entry.sect []), some name⟩) ∨
       (∃ k v, st'.current = st.current ∧
         (st'.parsed = updA st.parsed k (Entry.val v) ∨
          ∃ c mm, st.current = some c ∧ findA st.parsed c = some (Entry.sect mm) ∧
            st'.parsed = updA st.parsed c (Entry.sect (updA mm k v)))))) ∧
    (stepX m lx = m ∨ (∃ k v, stepX m lx = updA m k v) ∨
     (∃ k n d, stepX m lx =
        updA (updA m k (XVal.int n)) (k ++ chars "_details") (XVal.dmap d))) := by
  constructor
  · by_cases h1 : endsColon (pyStrip l) = true
    · refine ⟨⟨updA st.parsed (pyStrip l).dropLast (Entry.sect []),
              some (pyStrip l).dropLast⟩, by simp [stepE, h1], ?_⟩
      exact Or.inr (Or.inl ⟨(pyStrip l).dropLast, rfl⟩)
    · by_cases h2 : hasColon (pyStrip l) = true
      · cases hcur : st.current with
        | none =>
          refine ⟨⟨updA st.parsed (pyStrip (beforeColon (pyStrip l)))
                    (Entry.val (coerceVal (pyStrip (afterColon (pyStrip l))))), none⟩,
                  by simp [stepE, h1, h2, stepKV, hcur], ?_⟩
          refine Or.inr (Or.inr ⟨pyStrip (beforeColon (pyStrip l)),
            coerceVal (pyStrip (afterColon (pyStrip l))), rfl, Or.inl rfl⟩)
        | some c =>
          cases he : c.isEmpty with
          | true =>
            refine ⟨⟨updA st.parsed (pyStrip (beforeColon (pyStrip l)))
                      (Entry.val (coerceVal (pyStrip (afterColon (pyStrip l))))), some c⟩,
                    by simp [stepE, h1, h2, stepKV, hcur, he], ?_⟩
            refine Or.inr (Or.inr ⟨pyStrip (beforeColon (pyStrip l)),
              coerceVal (pyStrip (afterColon (pyStrip l))), rfl, Or.inl rfl⟩)
          | false =>
            obtain ⟨mm, hmm⟩ := h c hcur he
            refine ⟨⟨updA st.parsed c (Entry.sect (updA mm
                      (pyStrip (beforeColon (pyStrip l)))
                      (coerceVal (pyStrip (afterColon (pyStrip l)))))), some c⟩,
                    by simp [stepE, h1, h2, stepKV, hcur, he, hmm], ?_⟩
            refine Or.inr (Or.inr ⟨pyStrip (beforeColon (pyStrip l)),
              coerceVal (pyStrip (afterColon (pyStrip l))), rfl,
              Or.inr ⟨c, mm, rfl, hmm, rfl⟩⟩)
      · exact ⟨st, by simp [stepE, h1, h2], Or.inl rfl⟩
  · cases hkv : lineKV lx with
    | none => exact Or.inl (by simp [stepX, hkv])
    | some p =>
      obtain ⟨k, v⟩ := p
      cases hld : leadingDigits (pyStrip v) with
      | nil =>
        exact Or.inr (Or.inl ⟨k, XVal.str (pyStrip v), by simp [stepX, hkv, hld]⟩)
      | cons d ds =>
        cases hex : findallWN v.length v with
        | nil =>
          exact Or.inr (Or.inl ⟨k, XVal.int (digitsToNat (d :: ds)),
            by simp [stepX, hkv, hld, hex]⟩)
        | cons e es =>
          exact Or.inr (Or.inr ⟨k, digitsToNat (d :: ds), dictPairs (e :: es),
            by simp [stepX, hkv, hld, hex]⟩)

/-- C5 witness: a concrete key/value line under `_parse_summary` and a
concrete colon-free line under `parse_socket_output`. -/
theorem C5_witness :
    (∃ st', stepE initState (chars "A: 1") = Except.ok st' ∧
      (st' = initState ∨
       (∃ name, st' = ⟨updA initState.parsed name (Entry.sect []), some name⟩) ∨
       (∃ k v, st'.current = initState.current ∧
         (st'.parsed = updA initState.parsed k (Entry.val v) ∨
          ∃ c mm, initState.current = some c ∧
            findA initState.parsed c = some (Entry.sect mm) ∧
            st'.parsed = updA initState.parsed c (Entry.sect (updA mm k v)))))) ∧
    (stepX [] (chars "no colon") = [] ∨ (∃ k v, stepX [] (chars "no colon") = updA [] k v) ∨
     (∃ k n d, stepX [] (chars "no colon") =
        updA (updA [] k (XVal.int n)) (k ++ chars "_details") (XVal.dmap d))) :=
  C5_theorem initState (chars "A: 1") ParseInv_initState [] (chars "no colon")

/-- C5 counterexample: the claim says every line yields at most one key/value
entry; the single line `TCP: 45 (estab 30)` makes `parse_socket_output`
store TWO entries, `TCP` and `TCP_details`. -/
theorem C5_counterexample :
    pySplitlines (chars "TCP: 45 (estab 30)") = [chars "TCP: 45 (estab 30)"] ∧
      parse_socket_output (chars "TCP: 45 (estab 30)") =
        [(chars "TCP", XVal.int 45),
         (chars "TCP_details", XVal.dmap [(chars "estab", chars "30")])] := by decide

/-- C10: when `parse_socket_output` finds no "Total" entry, `get_socket_stats`
still returns a `SocketStats` whose `total` is the integer 0 (the
`parsed.get("Total", 0)` default), while `tcp`, `udp` and `unix` are `None`
whenever their keys are missing. -/
theorem C10_theorem (output : List Char)
    (h : findA (parse_socket_output output) (chars "Total") = none) :
    (get_socket_stats output).total = XVal.int 0 ∧
    (findA (parse_socket_output output) (chars "TCP") = none →
      (get_socket_stats output).tcp = none) ∧
    (findA (parse_socket_output output) (chars "UDP") = none →
      (get_socket_stats output).udp = none) ∧
    (findA (parse_socket_output output) (chars "UNIX") = none →
      (get_socket_stats output).unix = none) := by
  refine ⟨by simp [get_socket_stats, h], fun h2 => ?_, fun h2 => ?_, fun h2 => ?_⟩ <;>
    simp [get_socket_stats, h2]

/-- C10 witness: a concrete output with no parsed entries at all. -/
theorem C10_witness :
    (get_socket_stats (chars "hello world")).total = XVal.int 0 ∧
      (get_socket_stats (chars "hello world")).tcp = none :=
  ⟨(C10_theorem (chars "hello world") (by decide)).1,
   (C10_theorem (chars "hello world") (by decide)).2.1 (by decide)⟩

/-- Abstract outcome of one `subprocess.run` invocation: either the timeout
expired or the process completed with an exit code, stdout and stderr. -/
inductive ProcOutcome where
  | timeout
  | completed (exitCode : Int) (stdout stderr : List Char)

/-- The exceptions `SocketMonitor.get_summary` can raise: the
`FileNotFoundError` for a missing binary, and the re-raised
`subprocess.TimeoutExpired` / `subprocess.CalledProcessError` (the latter
carries the exit code and stderr). -/
inductive RunError where
  | fileNotFound
  | timeoutExpired
  | calledProcessError (returncode : Int) (stderr : List Char)
deriving DecidableEq

/-- The success value of `SocketMonitor.get_summary`: the parsed dict when
`json_output=True`, the stripped raw text otherwise. -/
inductive SummaryResult where
  | parsed (m : Summary)
  | raw (t : List Char)
deriving DecidableEq

/-- `config.COMMAND_TIMEOUT` of `info_sock.py` (seconds). -/
def COMMAND_TIMEOUT : Nat := 10

/-- `SocketMonitor.get_summary` (`info_sock.py` lines 33-72) as a function of
the environment: whether `shutil.which` finds the binary, and the outcome of
the spawned process.  `subprocess.run(..., check=True, timeout=...)` raises
`TimeoutExpired` on timeout and `CalledProcessError(returncode, ..., stderr)`
on a non-zero exit; the `except` clauses log and re-raise unchanged. -/
def get_summary (whichOk : Bool) (outcome : ProcOutcome) (jsonOutput : Bool) :
    Except RunError SummaryResult :=
  if whichOk then
    match outcome with
    | ProcOutcome.timeout => Except.error RunError.timeoutExpired
    | ProcOutcome.completed code outp err =>
      if code ≠ 0 then Except.error (RunError.calledProcessError code err)
      else if jsonOutput then Except.ok (SummaryResult.parsed (parseTop outp))
      else Except.ok (SummaryResult.raw (pyStrip outp))
  else Except.error RunError.fileNotFound

/-- Text of `str(subprocess.TimeoutExpired(cmd, timeout))`, with `cmd` the
rendered command. -/
def timeoutMessage (cmd : List Char) (t : Nat) : List Char :=
  chars "Command \x27" ++ cmd ++ chars "\x27 timed out after " ++
    (Nat.repr t).data ++ chars " seconds"

/-- Text of `str(subprocess.CalledProcessError(returncode, cmd))`: it renders
the command and the exit code but NOT the captured stderr. -/
def calledProcessMessage (cmd : List Char) (code : Int) : List Char :=
  chars "Command \x27" ++ cmd ++ chars "\x27 returned non-zero exit status " ++
    (Int.repr code).data ++ chars "."

/-- `execute_command` (`di_extended_beta1.py` lines 70-83): both
`TimeoutExpired` and `CalledProcessError` are subclasses of
`subprocess.SubprocessError`, so the single `except` clause turns either into
`(False, str(e))`; on success it returns `(True, stdout.strip())`. -/
def execute_command (cmd : List Char) (tmo : Nat) (outcome : ProcOutcome) :
    Bool × List Char :=
  match outcome with
  | ProcOutcome.timeout => (false, timeoutMessage cmd tmo)
  | ProcOutcome.completed code outp _ =>
    if code ≠ 0 then (false, calledProcessMessage cmd code)
    else (true, pyStrip outp)

/-- Whether `pat` occurs at the start of `l`. -/
def leadsWith : List Char → List Char → Bool
  | [], _ => true
  | _ :: _, [] => false
  | p :: ps, c :: cs => if p = c then leadsWith ps cs else false

/-- Whether `pat` occurs anywhere inside `l` (substring test). -/
def containsSub (pat : List Char) : List Char → Bool
  | [] => pat.isEmpty
  | l@(_ :: rest) => if leadsWith pat l then true else containsSub pat rest

/-- C7 (amended): `SocketMonitor.get_summary` fails with the distinct
exception classes `TimeoutExpired` (on timeout) and `CalledProcessError`
carrying the exit code and stderr (on non-zero exit), so its caller can tell
the two failure modes apart; the configured timeout default is 10 seconds.
`execute_command` in `di_extended_beta1.py` instead collapses both failures
into `(False, str(e))` — see the counterexample. -/
theorem C7_theorem (j : Bool) (code : Int) (outp err : List Char) (hcode : code ≠ 0) :
    get_summary true ProcOutcome.timeout j = Except.error RunError.timeoutExpired ∧
    get_summary true (ProcOutcome.completed code outp err) j =
      Except.error (RunError.calledProcessError code err) ∧
    RunError.timeoutExpired ≠ RunError.calledProcessError code err ∧
    COMMAND_TIMEOUT = 10 := by
  refine ⟨by simp [get_summary], by simp [get_summary, hcode], by simp, rfl⟩

/-- C7 witness: concrete exit code 2 with concrete stderr. -/
theorem C7_witness :
    get_summary true ProcOutcome.timeout false = Except.error RunError.timeoutExpired ∧
    get_summary true (ProcOutcome.completed 2 [] (chars "err text")) false =
      Except.error (RunError.calledProcessError 2 (chars "err text")) ∧
    RunError.timeoutExpired ≠ RunError.calledProcessError 2 (chars "err text") ∧
    COMMAND_TIMEOUT = 10 :=
  C7_theorem false 2 [] (chars "err text") (by decide)

/-- C7 counterexample: the claim (citing `execute_command`) says a non-zero
exit fails with a classified `CommandFailed` carrying the exit code AND
stderr, distinguishable from `Timeout`.  `execute_command` returns the same
shape `(False, message)` for both failures, and for a process that exits with
code 1 and stderr `boom` the message does not contain the stderr text at
all — the failure value carries no stderr. -/
theorem C7_counterexample :
    (execute_command (chars "ss -s") 10 (ProcOutcome.completed 1 [] (chars "boom"))).1
        = false ∧
      containsSub (chars "boom")
        (execute_command (chars "ss -s") 10 (ProcOutcome.completed 1 [] (chars "boom"))).2
        = false ∧
      (execute_command (chars "ss -s") 10 ProcOutcome.timeout).1 = false := by decide

/-- What `find_ss_binary` can observe about a candidate path: whether
`Path(path).exists()` holds, and (for the spec's claim) whether the file is
executable — which the code never consults. -/
structure FileStat where
  present : Bool
  executable : Bool
deriving DecidableEq

/-- The fixed candidate list of `find_ss_binary` (`di_extended_beta1.py`
lines 63-68): `DEFAULT_SS_PATH`, then `/bin/ss`, then `/usr/bin/ss`. -/
def ssCandidates : List (List Char) :=
  [chars "/usr/sbin/ss", chars "/bin/ss", chars "/usr/bin/ss"]

/-- The `for path in [...]` loop of `find_ss_binary`: return the first
candidate for which `Path(path).exists()` is true. -/
def findLoop (fs : List Char → FileStat) : List (List Char) → Option (List Char)
  | [] => none
  | p :: rest => if (fs p).present then some p else findLoop fs rest

/-- `find_ss_binary()` of `di_extended_beta1.py`, as a function of the
file-system state `fs`.  Returns `none` when no candidate exists, which
`get_socket_stats` reports as the not-found error. -/
def find_ss_binary (fs : List Char → FileStat) : Option (List Char) :=
  findLoop fs ssCandidates

/-- C8 (amended): `find_ss_binary` checks `/usr/sbin/ss`, `/bin/ss`,
`/usr/bin/ss` in that order and returns the first candidate that EXISTS —
executability is not checked — and returns `None` (surfaced as the not-found
error) exactly when none of the three exists. -/
theorem C8_theorem (fs : List Char → FileStat) (p : List Char) :
    (find_ss_binary fs = some p ↔
      ((fs (chars "/usr/sbin/ss")).present = true ∧ p = chars "/usr/sbin/ss") ∨
      ((fs (chars "/usr/sbin/ss")).present = false ∧
        (fs (chars "/bin/ss")).present = true ∧ p = chars "/bin/ss") ∨
      ((fs (chars "/usr/sbin/ss")).present = false ∧
        (fs (chars "/bin/ss")).present = false ∧
        (fs (chars "/usr/bin/ss")).present = true ∧ p = chars "/usr/bin/ss")) ∧
    (find_ss_binary fs = none ↔
      (fs (chars "/usr/sbin/ss")).present = false ∧
      (fs (chars "/bin/ss")).present = false ∧
      (fs (chars "/usr/bin/ss")).present = false) := by
  cases h1 : (fs (chars "/usr/sbin/ss")).present <;>
    cases h2 : (fs (chars "/bin/ss")).present <;>
      cases h3 : (fs (chars "/usr/bin/ss")).present <;>
        simp [find_ss_binary, findLoop, ssCandidates, h1, h2, h3, eq_comm]

/-- A file-system state in which the first candidate exists but is not
executable while the second exists and is executable. -/
def fsNonExec : List Char → FileStat := fun p =>
  if p = chars "/usr/sbin/ss" then ⟨true, false⟩
  else if p = chars "/bin/ss" then ⟨true, true⟩
  else ⟨false, false⟩

/-- C8 counterexample: the claim says the Runner returns the first candidate
that exists AND is executable; under `fsNonExec` that would be `/bin/ss`,
but `find_ss_binary` returns `/usr/sbin/ss`, which exists and is not
executable — the code only tests `Path(path).exists()`. -/
theorem C8_counterexample :
    find_ss_binary fsNonExec = some (chars "/usr/sbin/ss") ∧
      (fsNonExec (chars "/usr/sbin/ss")).executable = false ∧
      (fsNonExec (chars "/bin/ss")).present = true ∧
      (fsNonExec (chars "/bin/ss")).executable = true := by decide
